import Mathlib

/-!
Shallow embedding of the activity tracker (`src/main.rs`).

Modelling conventions:
* Wall-clock timestamps (`chrono::DateTime<Local>`) and monotonic instants
  (`std::time::Instant`) are both modelled as rational numbers on one common
  time line, in seconds.  The tracking loop reads both clocks at essentially
  the same moment in each iteration, so one timestamp per tick is faithful.
* `std::time::Duration` values and `f64` second counts are modelled as exact
  rationals.  `Duration` is non-negative by construction; where the code can
  produce a NaN/infinite `f64` (division by zero in the report) a dedicated
  `F64` type with IEEE-754 special values is used.
* CSV persistence is modelled at the record level: the file body is the list
  of serialized `UsageSession` rows (the fixed header and the per-field
  string encoding round-trip, so encode/decode of one record is the
  identity); a row that fails to parse is an `Except.error` row.
* `Duration::from_secs_f64` panics on a negative (or NaN/infinite/overflowing)
  argument; in the exact rational model the reachable panic condition is a
  negative argument, modelled by the `LoadResult.panicked` outcome.
-/

/-- Mirrors `struct ActiveEntity` (src/main.rs:14-20): identity of the active
application, with derived structural equality over all four fields. -/
structure ActiveEntity where
  bundle_id : String
  name : String
  url : Option String
  category : Option String
deriving DecidableEq, Repr

/-- Mirrors `struct UsageSession` (src/main.rs:22-38): one completed session
record, as serialized to CSV. -/
structure UsageSession where
  start_time : ℚ
  end_time : ℚ
  duration_seconds : ℚ
  app_name : String
  bundle_id : String
  category : String
  url : String
deriving DecidableEq, Repr

/-- Mirrors `UsageSession::from_entity` (src/main.rs:41-59).  `duration` is
the `Duration` argument, already converted by `as_secs_f64` (exact in the
rational model). -/
def UsageSession.from_entity (entity : ActiveEntity) (start stop : ℚ)
    (duration : ℚ) : UsageSession :=
  { start_time := start
    end_time := stop
    duration_seconds := duration
    app_name := entity.name
    bundle_id := entity.bundle_id
    category := entity.category.getD "Uncategorized"
    url := entity.url.getD "" }

/-- Mirrors `struct UsageStats` (src/main.rs:62-67). -/
structure UsageStats where
  sessions : List UsageSession
  total_duration : ℚ
  last_updated : ℚ
deriving DecidableEq, Repr

/-- Mirrors `UsageStats::new` (src/main.rs:70-76); `now` is `Local::now()`. -/
def UsageStats.new (now : ℚ) : UsageStats :=
  { sessions := [], total_duration := 0, last_updated := now }

/-- Mirrors `UsageStats::add_session` (src/main.rs:78-90): push the derived
record, add `duration` to the running total, stamp `last_updated := now`. -/
def UsageStats.add_session (self : UsageStats) (entity : ActiveEntity)
    (start_time end_time duration now : ℚ) : UsageStats :=
  { sessions := self.sessions ++ [UsageSession.from_entity entity start_time end_time duration]
    total_duration := self.total_duration + duration
    last_updated := now }

/-- Mirrors `UsageStats::save_to_file` (src/main.rs:92-118) at the record
level: the CSV body written is exactly `self.sessions`, in order (the fixed
header row and per-field encodings are injective and round-trip). -/
def UsageStats.save_to_file (self : UsageStats) : List UsageSession :=
  self.sessions

/-- One parsed row of a CSV file body: `rdr.deserialize()` yields either a
`UsageSession` or a parse error (src/main.rs:131-133). -/
abbrev CsvRow : Type := Except String UsageSession

/-- Outcome of `UsageStats::load_from_file`: normal return `Ok(stats)`,
error return `Err(msg)`, or a process-crashing panic raised by
`Duration::from_secs_f64` on a negative seconds value (src/main.rs:135). -/
inductive LoadResult where
  | ok (stats : UsageStats)
  | err (msg : String)
  | panicked
deriving DecidableEq, Repr

/-- The record loop of `UsageStats::load_from_file` (src/main.rs:131-141):
`acc` and `total` are the `stats.sessions` / `total_duration` accumulators;
a parse error aborts with `Err`; `Duration::from_secs_f64` panics on a
negative `duration_seconds`; at the end the accumulated total and `now`
(`Local::now()`) are written into the stats. -/
def loadLoop (now : ℚ) : List CsvRow → List UsageSession → ℚ → LoadResult
  | [], acc, total =>
      .ok { sessions := acc, total_duration := total, last_updated := now }
  | .error e :: _, _, _ => .err ("Failed to parse CSV record: " ++ e)
  | .ok session :: rest, acc, total =>
      if session.duration_seconds < 0 then .panicked
      else loadLoop now rest (acc ++ [session]) (total + session.duration_seconds)

/-- Mirrors `UsageStats::load_from_file` (src/main.rs:120-142) on the parsed
rows of an existing file (a missing file corresponds to `rows = []`, which
likewise yields the empty stats). -/
def UsageStats.load_from_file (rows : List CsvRow) (now : ℚ) : LoadResult :=
  loadLoop now rows [] 0

/-- The mutable tracking state of the sampling loop in `main`
(src/main.rs:275-277 and the `usage_stats` accumulator). -/
structure TrackerState where
  current_entity : Option ActiveEntity
  session_start_time : ℚ
  last_check_time : ℚ
  usage_stats : UsageStats
deriving DecidableEq, Repr

/-- State at the top of the loop (src/main.rs:275-277): no current entity,
both clocks read at startup time `t0`, stats as loaded. -/
def initialState (stats : UsageStats) (t0 : ℚ) : TrackerState :=
  { current_entity := none
    session_start_time := t0
    last_check_time := t0
    usage_stats := stats }

/-- One iteration of the sampling loop (src/main.rs:291-350) with snapshot
`new_active_entity` observed at time `t`:
`elapsed_since_last_check = loop_instant - last_check_time`; on a structural
difference the current session (if any) is closed with `end = Local::now()`
and duration `elapsed_since_last_check`, and the new snapshot becomes
current with `session_start_time = Local::now()`; in every case
`last_check_time` advances to the loop instant. -/
def tick (st : TrackerState) (new_active_entity : Option ActiveEntity)
    (t : ℚ) : TrackerState :=
  let elapsed_since_last_check := t - st.last_check_time
  let st1 :=
    if st.current_entity ≠ new_active_entity then
      let stats1 :=
        match st.current_entity with
        | some entity =>
            st.usage_stats.add_session entity st.session_start_time t
              elapsed_since_last_check t
        | none => st.usage_stats
      { st with
          usage_stats := stats1
          current_entity := new_active_entity
          session_start_time := t }
    else st
  { st1 with last_check_time := t }

/-- Runs the sampling loop over a finite list of `(snapshot, time)` ticks. -/
def runTicks (st : TrackerState) : List (Option ActiveEntity × ℚ) → TrackerState
  | [] => st
  | (s, t) :: rest => runTicks (tick st s t) rest

/-- Mirrors `chrono::Duration::num_seconds`: whole seconds, truncated toward
zero. -/
def numSeconds (q : ℚ) : ℤ :=
  if 0 ≤ q then ⌊q⌋ else -⌊-q⌋

/-- The post-loop flush on cancellation (src/main.rs:356-366): if an entity
is current, append one final session ending at `now = Local::now()` whose
duration is `Duration::from_secs(num_seconds as u64)` — the elapsed time
since `session_start_time` truncated to whole seconds; otherwise the stats
are left unchanged.  (The `as u64` cast is reached only with a non-negative
second count, the wall clock being monotone across the run.) -/
def shutdownFlush (st : TrackerState) (now : ℚ) : UsageStats :=
  match st.current_entity with
  | some entity =>
      st.usage_stats.add_session entity st.session_start_time now
        ((numSeconds (now - st.session_start_time) : ℤ) : ℚ) now
  | none => st.usage_stats

/-- Accumulates `d` into the entry of `groups` keyed `k`, inserting a fresh
entry at the end when absent: the `*map.entry(k).or_insert(ZERO) += d`
pattern of src/main.rs:380-393, with entries listed in first-insertion
order. -/
def addToGroup {κ : Type} [DecidableEq κ] :
    List (κ × ℚ) → κ → ℚ → List (κ × ℚ)
  | [], k, d => [(k, d)]
  | (k1, d1) :: rest, k, d =>
      if k1 = k then (k1, d1 + d) :: rest
      else (k1, d1) :: addToGroup rest k d

/-- The key under which the duration of a session is accumulated in `app_stats`
(src/main.rs:385-391): an `ActiveEntity` rebuilt from the session with
`url := None` and `category := Some(session.category)`. -/
def appStatsKey (session : UsageSession) : ActiveEntity :=
  { bundle_id := session.bundle_id
    name := session.app_name
    url := none
    category := some session.category }

/-- The `category_stats` map of src/main.rs:377-384, as an association list
in first-insertion order.  (`Duration::from_secs_f64` on each
`duration_seconds` is exact here; the sessions reaching this loop have
non-negative durations.) -/
def categoryStats (sessions : List UsageSession) : List (String × ℚ) :=
  sessions.foldl
    (fun groups session => addToGroup groups session.category session.duration_seconds) []

/-- The `app_stats` map of src/main.rs:378-393, as an association list in
first-insertion order. -/
def appStats (sessions : List UsageSession) : List (ActiveEntity × ℚ) :=
  sessions.foldl
    (fun groups session => addToGroup groups (appStatsKey session) session.duration_seconds) []

/-- In Rust, `Vec::sort_by` is a stable sort; with comparator
`|a, b| b.1.cmp(&a.1)` (src/main.rs:397, 407) it orders entries by
descending duration, equal durations keeping their relative order.  A stable
sort for a total preorder is unique, and `List.insertionSort` with the
non-strict descending relation computes it. -/
def sortGroupsDesc {κ : Type} (groups : List (κ × ℚ)) : List (κ × ℚ) :=
  List.insertionSort (fun a b => b.2 ≤ a.2) groups

/-- An `f64` value as produced by the percentage arithmetic of the report:
a finite rational or an IEEE-754 special value. -/
inductive F64 where
  | finite (val : ℚ)
  | nan
  | posInf
  | negInf
deriving DecidableEq, Repr

/-- The percentage expression of src/main.rs:400-401 and 410-411,
`(duration.as_secs_f64() / total.as_secs_f64()) * 100.0`, under IEEE-754
semantics on exact inputs: dividing a non-zero value by zero gives a signed
infinity, `0.0 / 0.0` gives NaN, and multiplying either special value by
`100.0` leaves it unchanged. -/
def percentOf (duration total : ℚ) : F64 :=
  if total = 0 then
    if duration = 0 then .nan
    else if 0 < duration then .posInf
    else .negInf
  else .finite (duration / total * 100)

/-- The store invariant: the running total equals the sum of the recorded
session durations. -/
def statsInvariant (s : UsageStats) : Prop :=
  s.total_duration = (s.sessions.map UsageSession.duration_seconds).sum

/-! Concrete entities, sessions and stats used as counterexample and witness
inputs. -/

/-- A plain application entity. -/
def entA : ActiveEntity :=
  { bundle_id := "com.a", name := "A", url := none, category := none }

/-- A second, structurally different application entity. -/
def entB : ActiveEntity :=
  { bundle_id := "com.b", name := "B", url := none, category := none }

/-- A browser-like entity with a tab locator. -/
def entAurl : ActiveEntity :=
  { bundle_id := "com.a", name := "A", url := some "https://x/1",
    category := some "Browser" }

/-- The same application as `entAurl` but with a different tab locator. -/
def entAurl2 : ActiveEntity :=
  { bundle_id := "com.a", name := "A", url := some "https://x/2",
    category := some "Browser" }

/-- A session of duration zero. -/
def zeroSession : UsageSession := UsageSession.from_entity entA 0 0 0

/-- A stats value whose total duration is zero. -/
def statsZero : UsageStats :=
  { sessions := [zeroSession], total_duration := 0, last_updated := 0 }

/-- A syntactically well-formed CSV row carrying a negative duration. -/
def negSession : UsageSession :=
  { start_time := 0, end_time := 1, duration_seconds := -1, app_name := "A",
    bundle_id := "com.a", category := "Uncategorized", url := "" }

/-- A session for app `(com.a, A)` in category `"X"`. -/
def sessCatX : UsageSession :=
  { start_time := 0, end_time := 1, duration_seconds := 1, app_name := "A",
    bundle_id := "com.a", category := "X", url := "" }

/-- A session for the same app `(com.a, A)` but in category `"Y"`, with the
same duration. -/
def sessCatY : UsageSession :=
  { start_time := 1, end_time := 2, duration_seconds := 1, app_name := "A",
    bundle_id := "com.a", category := "Y", url := "" }

/-! Theorems. -/

/-- C1: the claim says a session closed at a transition tick has
`duration_seconds = end_time - session_start_time`, the full span since the
session was opened, regardless of intermediate same-entity ticks.  The code
instead passes `elapsed_since_last_check` — the interval since the previous
tick only — to `add_session` (src/main.rs:317-329).  On the snapshot
sequence A at t=0, A at t=2, B at t=4 the session closed for A has
`start_time = 0` and `end_time = 4` but `duration_seconds = 2`, whereas the
claim requires `4 - 0`: the interval of the intermediate tick is dropped. -/
theorem C1_transition_duration_is_last_interval_only :
    ((runTicks (initialState (UsageStats.new 0) 0)
        [(some entA, 0), (some entA, 2), (some entB, 4)]).usage_stats.sessions.map
      (fun s => (s.start_time, s.end_time, s.duration_seconds)) = [((0 : ℚ), 4, 2)])
    ∧ (2 : ℚ) ≠ 4 - 0 := by
  constructor
  · norm_num +decide [runTicks, tick, initialState, UsageStats.new, UsageStats.add_session,
      UsageSession.from_entity, entA, entB]
  · norm_num

/-- C7: on cancellation while `Tracking(e)`, the shutdown flush emits
exactly one further session, for `e`, with `end_time` equal to the
cancellation time `now`, and with no entity tracked the flush emits
nothing.  The flush is the final step of the run (`runTicks` has already
consumed every tick), so no new session is opened and no further sample is
taken afterwards. -/
theorem C7_cancellation_flush (st : TrackerState) (now : ℚ) :
    (∀ e : ActiveEntity, st.current_entity = some e →
      (shutdownFlush st now).sessions
        = st.usage_stats.sessions
            ++ [UsageSession.from_entity e st.session_start_time now
                  ((numSeconds (now - st.session_start_time) : ℤ) : ℚ)]
      ∧ (UsageSession.from_entity e st.session_start_time now
            ((numSeconds (now - st.session_start_time) : ℤ) : ℚ)).end_time = now)
    ∧ (st.current_entity = none → shutdownFlush st now = st.usage_stats) := by
  constructor
  · intro e he
    exact ⟨by simp [shutdownFlush, he, UsageStats.add_session], rfl⟩
  · intro h
    simp [shutdownFlush, h]

/-- Witness for C7 at a concrete tracking state and cancellation time. -/
theorem C7_cancellation_flush_witness :
    (shutdownFlush
        { current_entity := some entA, session_start_time := 1, last_check_time := 3,
          usage_stats := UsageStats.new 0 } 5).sessions
      = (UsageStats.new 0).sessions
          ++ [UsageSession.from_entity entA 1 5 ((numSeconds ((5 : ℚ) - 1) : ℤ) : ℚ)] :=
  ((C7_cancellation_flush
      { current_entity := some entA, session_start_time := 1, last_check_time := 3,
        usage_stats := UsageStats.new 0 } 5).1 entA rfl).1

/-- C8: while `Tracking(e)`, a tick leaves the tracking state unchanged
(no session boundary) exactly when the new snapshot equals `some e`, where
`ActiveEntity` equality is structural over all of bundle id, name, url and
category; in particular a snapshot sharing the fields of `e` except for a
different `url` closes the session of `e` and immediately opens a new one. -/
theorem C8_structural_identity (st : TrackerState) (e : ActiveEntity)
    (snap : Option ActiveEntity) (t : ℚ) (hcur : st.current_entity = some e) :
    (((tick st snap t).usage_stats = st.usage_stats
        ∧ (tick st snap t).current_entity = st.current_entity
        ∧ (tick st snap t).session_start_time = st.session_start_time)
      ↔ snap = some e)
    ∧ (∀ e1 : ActiveEntity,
        e1 = e ↔ e1.bundle_id = e.bundle_id ∧ e1.name = e.name
          ∧ e1.url = e.url ∧ e1.category = e.category)
    ∧ (∀ e1 : ActiveEntity, snap = some e1 → e1.url ≠ e.url →
        (tick st snap t).usage_stats.sessions
          = st.usage_stats.sessions
              ++ [UsageSession.from_entity e st.session_start_time t
                    (t - st.last_check_time)]
          ∧ (tick st snap t).current_entity = some e1
          ∧ (tick st snap t).session_start_time = t) := by
  refine ⟨?_, ?_, ?_⟩
  · by_cases h : st.current_entity = snap
    · have hs : snap = some e := h.symm.trans hcur
      simp [tick, h, hs]
    · constructor
      · rintro ⟨-, h2, -⟩
        have hc : (tick st snap t).current_entity = snap := by simp [tick, h]
        exact absurd (hc.symm.trans h2).symm h
      · intro hs
        exact absurd (hcur.trans hs.symm) h
  · intro e1
    cases e1
    cases e
    simp [ActiveEntity.mk.injEq]
  · intro e1 hsnap hurl
    have hne : st.current_entity ≠ snap := by
      rw [hcur, hsnap]
      intro hcontr
      have he1 : e = e1 := by simpa using hcontr
      exact hurl (by rw [← he1])
    have hene : e ≠ e1 := fun h => hurl (congrArg ActiveEntity.url h.symm)
    refine ⟨?_, ?_, ?_⟩ <;> simp [tick, hne, hcur, hsnap, hene, UsageStats.add_session]

/-- Witness for C8: while tracking a browser tab, the next snapshot has the
same bundle id and name but a different url, and the tick closes the
session and starts tracking the new snapshot. -/
theorem C8_structural_identity_witness :
    (tick
        { current_entity := some entAurl, session_start_time := 0, last_check_time := 2,
          usage_stats := UsageStats.new 0 } (some entAurl2) 4).usage_stats.sessions
      = (UsageStats.new 0).sessions
          ++ [UsageSession.from_entity entAurl 0 4 ((4 : ℚ) - 2)]
    ∧ (tick
        { current_entity := some entAurl, session_start_time := 0, last_check_time := 2,
          usage_stats := UsageStats.new 0 } (some entAurl2) 4).current_entity = some entAurl2
    ∧ (tick
        { current_entity := some entAurl, session_start_time := 0, last_check_time := 2,
          usage_stats := UsageStats.new 0 } (some entAurl2) 4).session_start_time = 4 :=
  (C8_structural_identity
      { current_entity := some entAurl, session_start_time := 0, last_check_time := 2,
        usage_stats := UsageStats.new 0 } entAurl (some entAurl2) 4 rfl).2.2 entAurl2 rfl
    (by decide)

/-- C10: the session emitted by the shutdown flush has an integer
`duration_seconds`: the elapsed time since `session_start_time` is
truncated to whole seconds (`num_seconds`) before being recorded, so it
can fall short of `end_time - start_time` by up to one second, and a final
session shorter than one second is recorded with duration `0`; a session
closed at a transition tick instead receives the untruncated elapsed time
since the previous tick. -/
theorem C10_shutdown_truncates_to_whole_seconds (st : TrackerState)
    (e : ActiveEntity) (now : ℚ) (hcur : st.current_entity = some e)
    (hle : st.session_start_time ≤ now) :
    ((shutdownFlush st now).sessions
        = st.usage_stats.sessions
            ++ [UsageSession.from_entity e st.session_start_time now
                  ((⌊now - st.session_start_time⌋ : ℤ) : ℚ)])
    ∧ (∃ z : ℤ, (UsageSession.from_entity e st.session_start_time now
          ((⌊now - st.session_start_time⌋ : ℤ) : ℚ)).duration_seconds = (z : ℚ))
    ∧ now - st.session_start_time - 1 < ((⌊now - st.session_start_time⌋ : ℤ) : ℚ)
    ∧ ((⌊now - st.session_start_time⌋ : ℤ) : ℚ) ≤ now - st.session_start_time
    ∧ (now - st.session_start_time < 1 → ((⌊now - st.session_start_time⌋ : ℤ) : ℚ) = 0)
    ∧ (∀ (snap : Option ActiveEntity) (t : ℚ), st.current_entity ≠ snap →
        (tick st snap t).usage_stats.sessions
          = st.usage_stats.sessions
              ++ [UsageSession.from_entity e st.session_start_time t
                    (t - st.last_check_time)]) := by
  have h0 : 0 ≤ now - st.session_start_time := sub_nonneg.mpr hle
  refine ⟨?_, ⟨⌊now - st.session_start_time⌋, rfl⟩, ?_, ?_, ?_, ?_⟩
  · simp [shutdownFlush, hcur, UsageStats.add_session, numSeconds, h0]
  · exact_mod_cast Int.sub_one_lt_floor (now - st.session_start_time)
  · exact Int.floor_le (now - st.session_start_time)
  · intro h1
    have hz : ⌊now - st.session_start_time⌋ = 0 :=
      Int.floor_eq_zero_iff.mpr ⟨h0, h1⟩
    rw [hz]
    norm_num
  · intro snap t hne
    rw [hcur] at hne
    simp [tick, hne, hcur, UsageStats.add_session]

/-- Witness for C10: cancelling one and a half seconds into a session. -/
theorem C10_shutdown_truncates_witness :
    ((shutdownFlush
        { current_entity := some entA, session_start_time := 0, last_check_time := 0,
          usage_stats := UsageStats.new 0 } (3 / 2)).sessions
      = (UsageStats.new 0).sessions
          ++ [UsageSession.from_entity entA 0 (3 / 2) ((⌊(3 / 2 : ℚ) - 0⌋ : ℤ) : ℚ)])
    ∧ ((⌊(3 / 2 : ℚ) - 0⌋ : ℤ) : ℚ) ≤ (3 / 2 : ℚ) - 0 :=
  ⟨(C10_shutdown_truncates_to_whole_seconds
      { current_entity := some entA, session_start_time := 0, last_check_time := 0,
        usage_stats := UsageStats.new 0 } entA (3 / 2) rfl (by norm_num)).1,
   (C10_shutdown_truncates_to_whole_seconds
      { current_entity := some entA, session_start_time := 0, last_check_time := 0,
        usage_stats := UsageStats.new 0 } entA (3 / 2) rfl (by norm_num)).2.2.2.1⟩

/-- The load loop on all-parseable rows with non-negative durations returns
`Ok`, appending the rows to the accumulated sessions and their durations to
the accumulated total. -/
theorem loadLoop_ok (now : ℚ) (rows : List UsageSession) :
    ∀ (acc : List UsageSession) (total : ℚ),
      (∀ x ∈ rows, 0 ≤ x.duration_seconds) →
      loadLoop now (rows.map Except.ok) acc total
        = .ok { sessions := acc ++ rows,
                total_duration := total + (rows.map UsageSession.duration_seconds).sum,
                last_updated := now } := by
  induction rows with
  | nil => intro acc total _; simp [loadLoop]
  | cons x xs ih =>
      intro acc total h
      have hx : 0 ≤ x.duration_seconds := h x (List.mem_cons_self x xs)
      have hxs : ∀ y ∈ xs, 0 ≤ y.duration_seconds :=
        fun y hy => h y (List.mem_cons_of_mem x hy)
      simp only [List.map_cons, loadLoop, not_lt.mpr hx, if_false]
      rw [ih (acc ++ [x]) (total + x.duration_seconds) hxs]
      simp [List.append_assoc, add_assoc]

/-- Whenever the load loop returns `Ok`, the resulting stats satisfy the
total-duration invariant, provided the accumulators do. -/
theorem loadLoop_invariant (now : ℚ) (rows : List CsvRow) :
    ∀ (acc : List UsageSession) (total : ℚ),
      total = (acc.map UsageSession.duration_seconds).sum →
      ∀ s1 : UsageStats, loadLoop now rows acc total = .ok s1 → statsInvariant s1 := by
  induction rows with
  | nil =>
      intro acc total ht s1 h
      simp only [loadLoop, LoadResult.ok.injEq] at h
      rw [← h]
      exact ht
  | cons r rest ih =>
      intro acc total ht s1 h
      cases r with
      | error e => simp [loadLoop] at h
      | ok sess =>
          simp only [loadLoop] at h
          by_cases hd : sess.duration_seconds < 0
          · rw [if_pos hd] at h
            exact absurd h (by simp)
          · rw [if_neg hd] at h
            refine ih (acc ++ [sess]) (total + sess.duration_seconds) ?_ s1 h
            simp [ht]

/-- The load loop can only panic when some parseable row carries a negative
duration. -/
theorem loadLoop_ne_panicked (now : ℚ) (rows : List CsvRow) :
    ∀ (acc : List UsageSession) (total : ℚ),
      (∀ x : UsageSession, Except.ok x ∈ rows → 0 ≤ x.duration_seconds) →
      loadLoop now rows acc total ≠ .panicked := by
  induction rows with
  | nil => intro acc total _; simp [loadLoop]
  | cons r rest ih =>
      intro acc total h
      cases r with
      | error e => simp [loadLoop]
      | ok sess =>
          have hs : 0 ≤ sess.duration_seconds := h sess (List.mem_cons_self _ _)
          simp only [loadLoop, not_lt.mpr hs, if_false]
          exact ih (acc ++ [sess]) (total + sess.duration_seconds)
            (fun x hx => h x (List.mem_cons_of_mem _ hx))

/-- C2: saving a stats value and loading the produced rows back yields an
`Ok` result with the identical sessions sequence, in order, and the same
total duration (exactly, `f64` being modelled by exact rationals).  The two
preconditions — the running total equals the sum of the recorded durations
and every recorded duration is non-negative — hold of every stats value the
program builds (the former is the C6 invariant, the latter because every
recorded duration comes from a non-negative `std::time::Duration`). -/
theorem C2_save_load_round_trip (s : UsageStats) (now : ℚ)
    (hne : s.sessions ≠ [])
    (hinv : statsInvariant s)
    (hnn : ∀ x ∈ s.sessions, 0 ≤ x.duration_seconds) :
    ∃ s1 : UsageStats,
      UsageStats.load_from_file (s.save_to_file.map Except.ok) now = .ok s1
      ∧ s1.sessions = s.sessions
      ∧ s1.total_duration = s.total_duration := by
  refine ⟨{ sessions := s.sessions,
            total_duration := (s.sessions.map UsageSession.duration_seconds).sum,
            last_updated := now }, ?_, rfl, hinv.symm⟩
  have h := loadLoop_ok now s.sessions [] 0 hnn
  simpa [UsageStats.load_from_file, UsageStats.save_to_file] using h

/-- Witness for C2 at a concrete one-session stats value. -/
theorem C2_save_load_round_trip_witness :
    ∃ s1 : UsageStats,
      UsageStats.load_from_file
          ((UsageStats.save_to_file
              { sessions := [sessCatX], total_duration := 1, last_updated := 0 }).map
            Except.ok) 7
        = .ok s1
      ∧ s1.sessions = [sessCatX]
      ∧ s1.total_duration = 1 :=
  C2_save_load_round_trip
    { sessions := [sessCatX], total_duration := 1, last_updated := 0 } 7
    (by simp)
    (by simp [statsInvariant, sessCatX])
    (by intro x hx; simp at hx; rw [hx]; norm_num [sessCatX])

/-- C6: the invariant `total_duration = Σ duration_seconds` holds of the
empty stats, is preserved by `add_session` — which increments the total by
exactly the added duration — and is established by `load_from_file`, whose
total is the sum of the `duration_seconds` fields of the loaded records. -/
theorem C6_total_duration_invariant :
    (∀ now : ℚ, statsInvariant (UsageStats.new now))
    ∧ (∀ (s : UsageStats) (e : ActiveEntity) (start stop d now : ℚ),
        statsInvariant s →
          statsInvariant (s.add_session e start stop d now)
          ∧ (s.add_session e start stop d now).total_duration = s.total_duration + d)
    ∧ (∀ (rows : List CsvRow) (now : ℚ) (s1 : UsageStats),
        UsageStats.load_from_file rows now = .ok s1 → statsInvariant s1) := by
  refine ⟨?_, ?_, ?_⟩
  · intro now
    simp [statsInvariant, UsageStats.new]
  · intro s e start stop d now hs
    refine ⟨?_, rfl⟩
    simp [statsInvariant, UsageStats.add_session, UsageSession.from_entity] at hs ⊢
    rw [hs]
  · intro rows now s1 h
    exact loadLoop_invariant now rows [] 0 (by simp) s1 h

/-- Witness for C6: adding a one-second session to the empty stats yields a
total equal to the old total plus the added duration. -/
theorem C6_total_duration_invariant_witness :
    ((UsageStats.new 0).add_session entA 0 1 1 1).total_duration
      = (UsageStats.new 0).total_duration + 1 :=
  (C6_total_duration_invariant.2.1 (UsageStats.new 0) entA 0 1 1 1
    (by simp [statsInvariant, UsageStats.new])).2

/-- C9: `load_from_file` is total only for non-negative parsed durations.
A syntactically well-formed row whose `Duration (seconds)` field parses to
`-1` drives `Duration::from_secs_f64` into its panic branch — the process
crashes instead of returning the `Err` that malformed data produces —
while a row list whose parsed durations are all non-negative can never
reach the panic. -/
theorem C9_negative_duration_panics (rows : List CsvRow)
    (h : ∀ x : UsageSession, Except.ok x ∈ rows → 0 ≤ x.duration_seconds) :
    UsageStats.load_from_file [Except.ok negSession] 0 = .panicked
    ∧ UsageStats.load_from_file rows 0 ≠ .panicked := by
  constructor
  · norm_num [UsageStats.load_from_file, loadLoop, negSession]
  · exact loadLoop_ne_panicked 0 rows [] 0 h

/-- Witness for C9: the negative-duration row panics while the empty row
list loads without panicking. -/
theorem C9_negative_duration_panics_witness :
    UsageStats.load_from_file [Except.ok negSession] 0 = .panicked
    ∧ UsageStats.load_from_file ([] : List CsvRow) 0 ≠ .panicked :=
  C9_negative_duration_panics [] (by simp)

/-- In a list of non-negative rationals summing to zero, every member is
zero. -/
theorem mem_eq_zero_of_sum_eq_zero {l : List ℚ} (hnn : ∀ x ∈ l, 0 ≤ x)
    (hsum : l.sum = 0) : ∀ x ∈ l, x = 0 := by
  induction l with
  | nil => simp
  | cons a l ih =>
      have ha : 0 ≤ a := hnn a (List.mem_cons_self _ _)
      have hl : ∀ x ∈ l, 0 ≤ x := fun x hx => hnn x (List.mem_cons_of_mem _ hx)
      have hsl : 0 ≤ l.sum := List.sum_nonneg hl
      rw [List.sum_cons] at hsum
      have ha0 : a = 0 := by linarith
      have hl0 : l.sum = 0 := by linarith
      intro x hx
      rcases List.mem_cons.mp hx with h | h
      · rw [h, ha0]
      · exact ih hl hl0 x h

/-- Accumulating a zero duration preserves all-zero group values. -/
theorem addToGroup_zero {κ : Type} [DecidableEq κ] :
    ∀ (acc : List (κ × ℚ)) (k : κ), (∀ g ∈ acc, g.2 = 0) →
      ∀ g ∈ addToGroup acc k 0, g.2 = 0 := by
  intro acc
  induction acc with
  | nil =>
      intro k h g hg
      simp only [addToGroup, List.mem_singleton] at hg
      rw [hg]
  | cons p rest ih =>
      intro k h g hg
      obtain ⟨k1, d1⟩ := p
      simp only [addToGroup] at hg
      by_cases hk : k1 = k
      · rw [if_pos hk] at hg
        rcases List.mem_cons.mp hg with hg | hg
        · have hd1 : d1 = 0 := h (k1, d1) (List.mem_cons_self _ _)
          rw [hg]
          simpa using hd1
        · exact h g (List.mem_cons_of_mem _ hg)
      · rw [if_neg hk] at hg
        rcases List.mem_cons.mp hg with hg | hg
        · rw [hg]
          exact h (k1, d1) (List.mem_cons_self _ _)
        · exact ih k (fun g1 hg1 => h g1 (List.mem_cons_of_mem _ hg1)) g hg

/-- Folding all-zero durations into all-zero groups leaves every group
value zero. -/
theorem foldl_addToGroup_zero {κ : Type} [DecidableEq κ] (key : UsageSession → κ) :
    ∀ (sessions : List UsageSession) (acc : List (κ × ℚ)),
      (∀ s ∈ sessions, s.duration_seconds = 0) → (∀ g ∈ acc, g.2 = 0) →
      ∀ g ∈ sessions.foldl
          (fun groups s => addToGroup groups (key s) s.duration_seconds) acc,
        g.2 = 0 := by
  intro sessions
  induction sessions with
  | nil =>
      intro acc h hacc g hg
      simpa using hacc g (by simpa using hg)
  | cons s rest ih =>
      intro acc h hacc g hg
      simp only [List.foldl_cons] at hg
      have hs : s.duration_seconds = 0 := h s (List.mem_cons_self _ _)
      refine ih (addToGroup acc (key s) s.duration_seconds)
        (fun x hx => h x (List.mem_cons_of_mem _ hx)) ?_ g hg
      rw [hs]
      exact addToGroup_zero acc (key s) hacc

/-- C3: the claim says a zero total yields a `0` percentage for every
group.  The report has no zero guard (src/main.rs:400-401, 410-411): it
divides anyway, and with `total_duration = 0` every group duration is also
`0`, so under IEEE-754 semantics each printed percentage is `0.0 / 0.0 *
100.0 = NaN`, not `0`.  Evaluated on a stats value holding one
zero-duration session. -/
theorem C3_zero_total_gives_nan :
    (categoryStats statsZero.sessions).map
        (fun g => percentOf g.2 statsZero.total_duration) = [F64.nan]
    ∧ (appStats statsZero.sessions).map
        (fun g => percentOf g.2 statsZero.total_duration) = [F64.nan]
    ∧ F64.nan ≠ F64.finite 0 := by
  refine ⟨?_, ?_, by simp⟩ <;>
    norm_num +decide [categoryStats, appStats, addToGroup, appStatsKey, percentOf,
      statsZero, zeroSession, UsageSession.from_entity, entA]

/-- C3 (amended): when the total duration is zero and the session durations
are non-negative (as produced `std::time::Duration` values are), every
group in both groupings has duration zero and its computed percentage is
the IEEE-754 NaN produced by `0.0 / 0.0`, rather than `0`; no division
error or crash occurs. -/
theorem C3_amended_zero_total_percentages (sessions : List UsageSession)
    (hnn : ∀ s ∈ sessions, 0 ≤ s.duration_seconds)
    (htot : (sessions.map UsageSession.duration_seconds).sum = 0) :
    (∀ g ∈ categoryStats sessions, percentOf g.2 0 = F64.nan)
    ∧ (∀ g ∈ appStats sessions, percentOf g.2 0 = F64.nan) := by
  have hz : ∀ s ∈ sessions, s.duration_seconds = 0 := by
    intro s hs
    refine mem_eq_zero_of_sum_eq_zero ?_ htot _ (List.mem_map_of_mem _ hs)
    intro x hx
    obtain ⟨y, hy, rfl⟩ := List.mem_map.mp hx
    exact hnn y hy
  constructor
  · intro g hg
    have h0 : g.2 = 0 :=
      foldl_addToGroup_zero (fun s => s.category) sessions [] hz (by simp) g hg
    rw [h0]
    simp [percentOf]
  · intro g hg
    have h0 : g.2 = 0 :=
      foldl_addToGroup_zero appStatsKey sessions [] hz (by simp) g hg
    rw [h0]
    simp [percentOf]

/-- Witness for the amended C3 at the concrete zero-duration session. -/
theorem C3_amended_zero_total_witness : percentOf 0 0 = F64.nan := by
  have h := (C3_amended_zero_total_percentages [zeroSession]
    (by intro s hs; simp at hs; rw [hs]; norm_num [zeroSession, UsageSession.from_entity])
    (by norm_num [zeroSession, UsageSession.from_entity])).1
  have hmem : (("Uncategorized", (0 : ℚ)) : String × ℚ) ∈ categoryStats [zeroSession] := by
    norm_num +decide [categoryStats, addToGroup, zeroSession, UsageSession.from_entity, entA]
  simpa using h ("Uncategorized", 0) hmem

/-- C4: the claim says two sessions with the same `(entity_id,
display_name)` pair always land in the same per-application group,
`category` being display metadata only.  In the code the `app_stats` map
key is a rebuilt `ActiveEntity` that embeds `category`
(src/main.rs:385-391), so two sessions for the same app whose categories
differ are accumulated into two distinct groups, neither holding the
combined duration. -/
theorem C4_category_splits_app_groups :
    sessCatX.bundle_id = sessCatY.bundle_id
    ∧ sessCatX.app_name = sessCatY.app_name
    ∧ appStats [sessCatX, sessCatY]
        = [(appStatsKey sessCatX, 1), (appStatsKey sessCatY, 1)]
    ∧ appStatsKey sessCatX ≠ appStatsKey sessCatY := by
  refine ⟨rfl, rfl, ?_, by decide⟩
  norm_num +decide [appStats, addToGroup, appStatsKey, sessCatX, sessCatY]

/-- Keys of the groups after one accumulation step: unchanged if the key
was already present, otherwise the key is appended. -/
theorem addToGroup_map_fst {κ : Type} [DecidableEq κ] :
    ∀ (acc : List (κ × ℚ)) (k : κ) (d : ℚ),
      (addToGroup acc k d).map Prod.fst
        = if k ∈ acc.map Prod.fst then acc.map Prod.fst
          else acc.map Prod.fst ++ [k] := by
  intro acc
  induction acc with
  | nil => intro k d; simp [addToGroup]
  | cons p rest ih =>
      intro k d
      obtain ⟨k1, d1⟩ := p
      by_cases hk : k1 = k
      · subst hk
        simp [addToGroup]
      · simp only [addToGroup, if_neg hk, List.map_cons]
        rw [ih k d]
        by_cases hmem : k ∈ rest.map Prod.fst
        · simp [hmem, Ne.symm hk]
        · simp [hmem, Ne.symm hk]

/-- One accumulation step preserves distinctness of the group keys. -/
theorem addToGroup_nodup {κ : Type} [DecidableEq κ] (acc : List (κ × ℚ))
    (k : κ) (d : ℚ) (h : (acc.map Prod.fst).Nodup) :
    ((addToGroup acc k d).map Prod.fst).Nodup := by
  rw [addToGroup_map_fst]
  by_cases hmem : k ∈ acc.map Prod.fst
  · simpa [hmem] using h
  · rw [if_neg hmem, ← List.concat_eq_append]
    exact h.concat hmem

/-- The grouping fold keeps the group keys distinct: each key owns exactly
one group. -/
theorem foldl_addToGroup_nodup {κ : Type} [DecidableEq κ] (key : UsageSession → κ) :
    ∀ (sessions : List UsageSession) (acc : List (κ × ℚ)),
      (acc.map Prod.fst).Nodup →
      ((sessions.foldl
          (fun groups s => addToGroup groups (key s) s.duration_seconds) acc).map
        Prod.fst).Nodup := by
  intro sessions
  induction sessions with
  | nil => intro acc h; simpa using h
  | cons s rest ih =>
      intro acc h
      simp only [List.foldl_cons]
      exact ih _ (addToGroup_nodup acc (key s) s.duration_seconds h)

/-- C4 (amended): the per-application grouping key is exactly the triple
`(bundle_id, app_name, category)`: two sessions share a group precisely
when all three coincide, so `category` does affect grouping, while the
session `url` never does — the `url` field of the key is hard-wired to `none`
(no "last seen" locator is retained).  Each key owns exactly one group in
the accumulated list. -/
theorem C4_amended_grouping_key (s1 s2 : UsageSession) (sessions : List UsageSession) :
    (appStatsKey s1 = appStatsKey s2 ↔
      s1.bundle_id = s2.bundle_id ∧ s1.app_name = s2.app_name
        ∧ s1.category = s2.category)
    ∧ (appStatsKey s1).url = none
    ∧ ((appStats sessions).map Prod.fst).Nodup := by
  refine ⟨?_, rfl, ?_⟩
  · simp [appStatsKey, ActiveEntity.mk.injEq]
  · exact foldl_addToGroup_nodup appStatsKey sessions [] (by simp)

/-- C5: the claim says equal-duration groups appear in first-encounter
order, independently of map iteration order.  The code sorts the
`HashMap::into_iter` sequence with a stable sort keyed on duration alone
(src/main.rs:396-397, 406-407), so the relative order of equal-duration
groups is whatever order the hash map yielded them in.  Here the grouping
first encounters `"X"` then `"Y"` (equal durations); iterating the same
groups in the other order — a permutation the hash map is free to produce —
makes the report list `"Y"` first, so the output does depend on iteration
order. -/
theorem C5_tie_order_follows_iteration_order :
    categoryStats [sessCatX, sessCatY] = [("X", 1), ("Y", 1)]
    ∧ ([("Y", (1 : ℚ)), ("X", 1)] : List (String × ℚ)).Perm
        (categoryStats [sessCatX, sessCatY])
    ∧ sortGroupsDesc ([("Y", (1 : ℚ)), ("X", 1)] : List (String × ℚ))
        = [("Y", 1), ("X", 1)]
    ∧ sortGroupsDesc (categoryStats [sessCatX, sessCatY]) = [("X", 1), ("Y", 1)]
    ∧ ([("Y", (1 : ℚ)), ("X", 1)] : List (String × ℚ)) ≠ [("X", 1), ("Y", 1)] := by
  have hg : categoryStats [sessCatX, sessCatY] = [("X", 1), ("Y", 1)] := by
    norm_num +decide [categoryStats, addToGroup, sessCatX, sessCatY]
  have hs1 : sortGroupsDesc ([("Y", (1 : ℚ)), ("X", 1)] : List (String × ℚ))
      = [("Y", 1), ("X", 1)] := by
    norm_num [sortGroupsDesc, List.insertionSort, List.orderedInsert]
  refine ⟨hg, ?_, hs1, ?_, by decide⟩
  · rw [hg]
    exact List.Perm.swap _ _ _
  · rw [hg]
    norm_num [sortGroupsDesc, List.insertionSort, List.orderedInsert]

/-- C5 (amended): both report groupings are sorted descending by summed
duration via a stable sort, and the output is a permutation of the groups;
but the order among equal-duration groups is inherited from the map
iteration sequence fed to the sort (stability: any duration-descending
pair keeps its relative iteration order), and that iteration order is
unspecified — first-encounter order is not guaranteed. -/
theorem C5_amended_sorted_by_duration (sessions : List UsageSession)
    (iterC : List (String × ℚ)) (hC : iterC.Perm (categoryStats sessions))
    (iterA : List (ActiveEntity × ℚ)) (hA : iterA.Perm (appStats sessions)) :
    (sortGroupsDesc iterC).Pairwise (fun a b => b.2 ≤ a.2)
    ∧ (sortGroupsDesc iterC).Perm (categoryStats sessions)
    ∧ (∀ a b : String × ℚ, b.2 ≤ a.2 → [a, b].Sublist iterC →
        [a, b].Sublist (sortGroupsDesc iterC))
    ∧ (sortGroupsDesc iterA).Pairwise (fun a b => b.2 ≤ a.2)
    ∧ (sortGroupsDesc iterA).Perm (appStats sessions)
    ∧ (∀ a b : ActiveEntity × ℚ, b.2 ≤ a.2 → [a, b].Sublist iterA →
        [a, b].Sublist (sortGroupsDesc iterA)) := by
  haveI h1 : IsTotal (String × ℚ) (fun a b => b.2 ≤ a.2) :=
    ⟨fun a b => le_total b.2 a.2⟩
  haveI h2 : IsTrans (String × ℚ) (fun a b => b.2 ≤ a.2) :=
    ⟨fun a b c hab hbc => le_trans hbc hab⟩
  haveI h3 : IsTotal (ActiveEntity × ℚ) (fun a b => b.2 ≤ a.2) :=
    ⟨fun a b => le_total b.2 a.2⟩
  haveI h4 : IsTrans (ActiveEntity × ℚ) (fun a b => b.2 ≤ a.2) :=
    ⟨fun a b c hab hbc => le_trans hbc hab⟩
  refine ⟨List.sorted_insertionSort _ iterC,
    (List.perm_insertionSort _ iterC).trans hC, ?_,
    List.sorted_insertionSort _ iterA,
    (List.perm_insertionSort _ iterA).trans hA, ?_⟩
  · intro a b hab hsub
    exact List.pair_sublist_insertionSort hab hsub
  · intro a b hab hsub
    exact List.pair_sublist_insertionSort hab hsub

/-- Witness for the amended C5 on concrete groups and iteration orders. -/
theorem C5_amended_sorted_witness :
    (sortGroupsDesc ([("Y", (1 : ℚ)), ("X", 1)] : List (String × ℚ))).Pairwise
      (fun a b => b.2 ≤ a.2)
    ∧ (sortGroupsDesc ([("Y", (1 : ℚ)), ("X", 1)] : List (String × ℚ))).Perm
        (categoryStats [sessCatX, sessCatY]) :=
  ⟨(C5_amended_sorted_by_duration [sessCatX, sessCatY] [("Y", 1), ("X", 1)]
      (by norm_num +decide [categoryStats, addToGroup, sessCatX, sessCatY])
      (appStats [sessCatX, sessCatY]) (List.Perm.refl _)).1,
   (C5_amended_sorted_by_duration [sessCatX, sessCatY] [("Y", 1), ("X", 1)]
      (by norm_num +decide [categoryStats, addToGroup, sessCatX, sessCatY])
      (appStats [sessCatX, sessCatY]) (List.Perm.refl _)).2.1⟩
